import Mathlib

/-!
Shallow embedding of `calliope/backend/pyomo/model.py` (the sparse indexed
model-building and result-extraction engine) together with proofs about its
behaviour.

Python dictionaries and model attribute tables are embedded as association
lists with insertion-order preserving update; the Pyomo backend model is an
association list from attribute names to tagged components.  External
collaborators (Pyomo, pandas, the logging module, `calliope.exceptions`,
`calliope.backend.pyomo.util`) are embedded as explicit state or oracles;
those that are documented only by the repository specification carry a
`Modelled from the spec:` doc comment.
-/

namespace Calliope

abbrev Name := String

/-- A coordinate tuple indexing one entry of a family (one label per
`foreach` dimension). -/
abbrev Idx := List String

/-! ### Association-list primitives (Python `dict` / attribute table) -/

/-- First value bound to key `k`, like Python `d[k]` / `getattr`. -/
def findVal {κ α : Type} [DecidableEq κ] : List (κ × α) → κ → Option α
  | [], _ => none
  | p :: rest, k => if p.1 = k then some p.2 else findVal rest k

/-- Key-membership test, like Python `k in d` / `hasattr`. -/
def hasKey {κ α : Type} [DecidableEq κ] (l : List (κ × α)) (k : κ) : Bool :=
  (findVal l k).isSome

/-- In-place update-or-append, like Python `d[k] = v` / `setattr`
(insertion order of an existing key is preserved). -/
def updateKey {κ α : Type} [DecidableEq κ] : List (κ × α) → κ → α → List (κ × α)
  | [], k, v => [(k, v)]
  | p :: rest, k, v => if p.1 = k then (k, v) :: rest else p :: updateKey rest k v

/-- Key removal, like Python `del d[k]`. -/
def dropKey {κ α : Type} [DecidableEq κ] : List (κ × α) → κ → List (κ × α)
  | [], _ => []
  | p :: rest, k => if p.1 = k then dropKey rest k else p :: dropKey rest k

theorem findVal_updateKey_self {κ α : Type} [DecidableEq κ]
    (l : List (κ × α)) (k : κ) (v : α) :
    findVal (updateKey l k v) k = some v := by
  induction l with
  | nil => simp [updateKey, findVal]
  | cons p rest ih =>
    by_cases h : p.1 = k
    · simp [updateKey, h, findVal]
    · simp [updateKey, h, findVal, ih]

theorem findVal_updateKey_ne {κ α : Type} [DecidableEq κ]
    (l : List (κ × α)) (k k' : κ) (v : α) (h : k' ≠ k) :
    findVal (updateKey l k v) k' = findVal l k' := by
  induction l with
  | nil => simp [updateKey, findVal, Ne.symm h]
  | cons p rest ih =>
    by_cases hp : p.1 = k
    · subst hp
      simp [updateKey, findVal, Ne.symm h]
    · simp [updateKey, hp, findVal, ih]

theorem findVal_dropKey_self {κ α : Type} [DecidableEq κ]
    (l : List (κ × α)) (k : κ) :
    findVal (dropKey l k) k = none := by
  induction l with
  | nil => simp [dropKey, findVal]
  | cons p rest ih =>
    by_cases h : p.1 = k
    · simp [dropKey, h, ih]
    · simp [dropKey, h, findVal, ih]

theorem hasKey_dropKey_self {κ α : Type} [DecidableEq κ]
    (l : List (κ × α)) (k : κ) :
    hasKey (dropKey l k) k = false := by
  simp [hasKey, findVal_dropKey_self]

theorem findVal_append {κ α : Type} [DecidableEq κ]
    (l₁ l₂ : List (κ × α)) (k : κ) :
    findVal (l₁ ++ l₂) k =
      match findVal l₁ k with
      | some v => some v
      | none => findVal l₂ k := by
  induction l₁ with
  | nil => simp [findVal]
  | cons p rest ih =>
    by_cases h : p.1 = k
    · simp [findVal, h]
    · simp [findVal, h, ih]

theorem hasKey_append {κ α : Type} [DecidableEq κ]
    (l₁ l₂ : List (κ × α)) (k : κ) :
    hasKey (l₁ ++ l₂) k = (hasKey l₁ k || hasKey l₂ k) := by
  rw [hasKey, findVal_append]
  cases h : findVal l₁ k <;> simp [hasKey, h]

theorem hasKey_iff_mem_keys {κ α : Type} [DecidableEq κ]
    (l : List (κ × α)) (k : κ) :
    hasKey l k = true ↔ k ∈ l.map (fun p => p.1) := by
  induction l with
  | nil => simp [hasKey, findVal]
  | cons p rest ih =>
    by_cases h : p.1 = k
    · simp [hasKey, findVal, h]
    · simp [hasKey, findVal, h, Ne.symm h] at ih ⊢
      exact ih

theorem hasKey_eq_false_iff {κ α : Type} [DecidableEq κ]
    (l : List (κ × α)) (k : κ) :
    hasKey l k = false ↔ findVal l k = none := by
  cases h : findVal l k <;> simp [hasKey, h]

theorem updateKey_of_findVal_none {κ α : Type} [DecidableEq κ]
    (l : List (κ × α)) (k : κ) (v : α) (h : findVal l k = none) :
    updateKey l k v = l ++ [(k, v)] := by
  induction l with
  | nil => simp [updateKey]
  | cons p rest ih =>
    by_cases hp : p.1 = k
    · simp [findVal, hp] at h
    · simp [findVal, hp] at h
      simp [updateKey, hp, ih h]

theorem findVal_of_mem_nodup {κ α : Type} [DecidableEq κ]
    (l : List (κ × α)) (k : κ) (v : α)
    (hnd : (l.map (fun p => p.1)).Nodup) (hmem : (k, v) ∈ l) :
    findVal l k = some v := by
  induction l with
  | nil => simp at hmem
  | cons p rest ih =>
    simp only [List.map_cons, List.nodup_cons] at hnd
    rcases List.mem_cons.mp hmem with h | h
    · subst h
      simp [findVal]
    · have hk : p.1 ≠ k := by
        intro he
        exact hnd.1 (he ▸ (List.mem_map.mpr ⟨(k, v), h, rfl⟩))
      simp [findVal, hk, ih hnd.2 h]

/-! ### Data model -/

/-- A pandas cell: a finite numeric value, an infinity, or a missing value
(`NaN`/`None`, written `na`). -/
inductive Entry where
  | val (v : ℚ)
  | posInf
  | negInf
  | na
deriving DecidableEq, Repr

/-- A plain Python value, as stored in run-configuration option maps and
solver keyword arguments. -/
inductive PyVal where
  | num (v : ℚ)
  | str (s : String)
  | bool (b : Bool)
  | dict (d : List (String × ℚ))
deriving DecidableEq, Repr

/-- A Python exception escaping one of the embedded functions.
`attributeError` is a builtin attribute-lookup failure (as raised by a bare
`getattr` on a missing name); `configurationError` stands for the
configuration-error class named by the specification's error taxonomy, which
the embedded code never raises. -/
inductive PyError where
  | attributeError (attr : String)
  | configurationError (msg : String)
deriving DecidableEq, Repr

/-- One data variable of the input dataset (`model_data.data_vars[k]`):
its dimension names, its series of per-tuple cells, and the
`is_result` / `operate_param` attributes (absent `operate_param` is 0). -/
structure DataVar where
  dims : List Name
  series : List (Idx × Entry)
  is_result : Nat
  operate_param : Nat
deriving DecidableEq, Repr

/-- A Pyomo `Param` component as built by this module: sparse
initialization data, optional default, mutability, indexedness
(`po.Param(*dims, ...)` is indexed iff `dims` is nonempty) and domain. -/
structure ParamComp where
  init : List (Idx × ℚ)
  dflt : Option Entry
  mutable : Bool
  indexed : Bool
  within : Name
deriving DecidableEq, Repr

/-- Pyomo `Param` lookup at an index: initialization value if present,
otherwise the default (absence of both is an access error, `none`). -/
def ParamComp.valueAt (p : ParamComp) (t : Idx) : Option Entry :=
  match findVal p.init t with
  | some v => some (.val v)
  | none => p.dflt

/-- A rule function `(model, *index) -> expression`: the model argument is
already applied, leaving the per-tuple numeric value. -/
abbrev Rule := Idx → ℚ

/-- The initializer of a Pyomo `Expression`: a registered rule, or the
constant used by `initialize=`. -/
inductive ExprInit where
  | rule (r : Rule)
  | const (v : ℚ)

/-- A Pyomo `Expression` component: its active index set and initializer. -/
structure ExprComp where
  index : List Idx
  init : ExprInit

/-- Value of an expression at a tuple: defined only on its active index. -/
def ExprComp.valueAt (e : ExprComp) (t : Idx) : Option ℚ :=
  if t ∈ e.index then
    some (match e.init with
          | .rule r => r t
          | .const v => v)
  else none

/-- A Pyomo `Var` component: active index, domain, and the raw bounds
specification (passed through `get_capacity_bounds`, external). -/
structure VarComp where
  index : List Idx
  domain : Name
  bounds : Option Name

/-- A Pyomo `Constraint` component: its active index and its rule. -/
structure ConstrComp where
  index : List Idx
  rule : Rule

/-- One attribute of the Pyomo `ConcreteModel`. `set`/`param`/`var`/`expr`/
`constr` are Pyomo components; `raw` is a plain Python attribute (the
non-`cost_class` objective options); `pyobj` is an opaque non-component
attribute (the `__calliope_defaults` / `__calliope_run_config` AttrDicts). -/
inductive Component where
  | set (labels : List String)
  | param (p : ParamComp)
  | var (v : VarComp)
  | expr (e : ExprComp)
  | constr (c : ConstrComp)
  | raw (v : PyVal)
  | pyobj (tag : String)

/-- The Pyomo `ConcreteModel` under construction: an attribute table from
names to components. -/
structure BackendModel where
  comps : List (Name × Component)

def BackendModel.getattr (m : BackendModel) (k : Name) : Option Component :=
  findVal m.comps k

def BackendModel.hasattr (m : BackendModel) (k : Name) : Bool :=
  hasKey m.comps k

def BackendModel.setattr (m : BackendModel) (k : Name) (c : Component) :
    BackendModel :=
  ⟨updateKey m.comps k c⟩

theorem getattr_setattr_self (m : BackendModel) (k : Name) (c : Component) :
    (m.setattr k c).getattr k = some c :=
  findVal_updateKey_self m.comps k c

theorem getattr_setattr_ne (m : BackendModel) (k k' : Name) (c : Component)
    (h : k' ≠ k) : (m.setattr k c).getattr k' = m.getattr k' :=
  findVal_updateKey_ne m.comps k k' c h

/-- All `Param` components of the model, in declaration order
(`backend_model.component_objects(ctype=po.Param)`). -/
def BackendModel.params (m : BackendModel) : List (Name × ParamComp) :=
  m.comps.filterMap (fun p =>
    match p.2 with
    | .param q => some (p.1, q)
    | _ => none)

/-- The run configuration (`model_data.attrs["run_config"]`, parsed once by
the external `AttrDict`). -/
structure RunConfig where
  mode : String
  objective : Name
  objective_options : List (String × PyVal)
  bigM : Option ℚ

/-! ### `build_sets` and `build_params` -/

/-- Embedding of `build_sets`: one ordered Pyomo `Set` per dataset coordinate. -/
def build_sets (coords : List (Name × List String)) (m : BackendModel) :
    BackendModel :=
  coords.foldl (fun m p => m.setattr p.1 (.set p.2)) m

/-- Embedding of `v.to_series().dropna().to_dict()` evaluated under
`pd.option_context("mode.use_inf_as_na", True)`: infinities and missing
values alike are dropped; only finite cells survive. -/
def paramInitFromSeries : List (Idx × Entry) → List (Idx × ℚ)
  | [] => []
  | p :: rest =>
    match p.2 with
    | .val v => (p.1, v) :: paramInitFromSeries rest
    | _ => paramInitFromSeries rest

/-- The keyword arguments of the `po.Param` built from one data variable:
sparse finite initialization data, `mutable=True`, a default only when the
defaults table holds a non-null value for this name, and the domain
computed by the external `get_domain`. -/
def paramFromVar (getDomain : Name → DataVar → Name)
    (defaults : List (Name × Entry)) (k : Name) (v : DataVar) : ParamComp :=
  { init := paramInitFromSeries v.series
    dflt :=
      match findVal defaults k with
      | some e => if e = .na then none else some e
      | none => none
    mutable := true
    indexed := !v.dims.isEmpty
    within := getDomain k v }

/-- One iteration of the `build_params` data-variable loop: a parameter is
declared when the variable is input data (`is_result == 0`) or an operate
parameter in operate mode; a name colliding with an existing model
attribute is prepended with `calliope_` before declaration. -/
def declareParamFromVar (getDomain : Name → DataVar → Name)
    (defaults : List (Name × Entry)) (runConfig : RunConfig)
    (m : BackendModel) (kv : Name × DataVar) : BackendModel :=
  if kv.2.is_result = 0 ∨
      (kv.2.operate_param = 1 ∧ runConfig.mode = "operate") then
    let p := paramFromVar getDomain defaults kv.1 kv.2
    let k := if m.hasattr kv.1 then "calliope_" ++ kv.1 else kv.1
    m.setattr k (.param p)
  else m

/-- The `build_params` objective-options loop.  For `cost_class` the option
dictionary is filtered to keys in `backend_model.costs` and declared as the
mutable real `objective_cost_class` parameter over `costs`; any other
option becomes the plain attribute `objective_<name>`.  A non-dictionary
`cost_class` value raises (``.items()`` on a non-dict), as does a missing
`costs` set attribute. -/
def buildObjectiveOptions (m : BackendModel) :
    List (String × PyVal) → Except PyError BackendModel
  | [] => .ok m
  | (optName, optVal) :: rest =>
    if optName = "cost_class" then
      match optVal with
      | .dict d =>
        match m.getattr "costs" with
        | some (.set costs) =>
          let filtered := d.filter (fun kv => decide (kv.1 ∈ costs))
          buildObjectiveOptions
            (m.setattr "objective_cost_class"
              (.param
                { init := filtered.map (fun kv => ([kv.1], kv.2))
                  dflt := none
                  mutable := true
                  indexed := true
                  within := "Reals" })) rest
        | _ => .error (.attributeError "costs")
      | _ => .error (.attributeError "items")
    else
      buildObjectiveOptions (m.setattr ("objective_" ++ optName) (.raw optVal))
        rest

/-- Embedding of `build_params`: stores the parsed defaults and run configuration as
non-component attributes, declares one parameter per eligible data
variable, processes the objective options, and declares the scalar `bigM`
parameter (default `1e10`). -/
def build_params (getDomain : Name → DataVar → Name)
    (defaults : List (Name × Entry)) (runConfig : RunConfig)
    (dataVars : List (Name × DataVar)) (m : BackendModel) :
    Except PyError BackendModel :=
  let m := m.setattr "__calliope_defaults" (.pyobj "AttrDict")
  let m := m.setattr "__calliope_run_config" (.pyobj "AttrDict")
  let m := dataVars.foldl (declareParamFromVar getDomain defaults runConfig) m
  (buildObjectiveOptions m runConfig.objective_options).map (fun m =>
    m.setattr "bigM"
      (.param
        { init := [([], runConfig.bigM.getD 10000000000)]
          dflt := none
          mutable := true
          indexed := false
          within := "NonNegativeReals" }))

/-! ### `build_variables`, `build_expressions`, `build_constraints`,
`build_objective` and the generation pipeline -/

/-- The per-variable configuration from `imask_config["variables"]`. -/
structure VarConfig where
  domain : Name
  bounds : Option Name

/-- Embedding of `build_variables`: one `po.Var` per family, indexed by its imask, with
its configured domain and (optionally) capacity bounds. -/
def build_variables (varCfgs : Name → VarConfig) (m : BackendModel) :
    List (Name × List Idx) → BackendModel
  | [] => m
  | (name, imask) :: rest =>
    let cfg := varCfgs name
    build_variables varCfgs
      (m.setattr name (.var { index := imask, domain := cfg.domain,
                              bounds := cfg.bounds })) rest

/-- The rule registry (`calliope.backend.pyomo.constraints` module
namespace): `hasattr`/`getattr` by exact function name. -/
abbrev Registry := Name → Option Rule

/-- Embedding of `build_expressions`: one `po.Expression` per family over its imask;
when `{name}_expression_rule` exists in the registry it is the rule,
otherwise the expression is initialized with the constant `0.0`. -/
def build_expressions (reg : Registry) (m : BackendModel) :
    List (Name × List Idx) → Except PyError BackendModel
  | [] => .ok m
  | (name, imask) :: rest =>
    let einit : ExprInit :=
      match reg (name ++ "_expression_rule") with
      | some r => .rule r
      | none => .const 0
    build_expressions reg (m.setattr name (.expr ⟨imask, einit⟩)) rest

/-- Embedding of `build_constraints`: one `po.Constraint` per family over its imask,
with rule `getattr(constraints, f"{name}_constraint_rule")` — a bare
`getattr`, so a missing rule raises an attribute-lookup error. -/
def build_constraints (reg : Registry) (m : BackendModel) :
    List (Name × List Idx) → Except PyError BackendModel
  | [] => .ok m
  | (name, imask) :: rest =>
    match reg (name ++ "_constraint_rule") with
    | some r =>
        build_constraints reg
          (m.setattr (name ++ "_constraint") (.constr ⟨imask, r⟩)) rest
    | none => .error (.attributeError (name ++ "_constraint_rule"))

/-- Embedding of `build_objective`: `load_function` of the configured objective name,
applied once to the model; an unresolvable name raises. -/
def build_objective (objReg : Name → Option (BackendModel → BackendModel))
    (objName : Name) (m : BackendModel) : Except PyError BackendModel :=
  match objReg objName with
  | some f => .ok (f m)
  | none => .error (.attributeError objName)

/-- The tail of `generate_model` after sets and parameters are built:
variables, then expressions, then constraints, then the objective, in
source order. -/
def generateFrom (reg : Registry)
    (objReg : Name → Option (BackendModel → BackendModel)) (objName : Name)
    (varCfgs : Name → VarConfig)
    (imasksV imasksE imasksC : List (Name × List Idx)) (m : BackendModel) :
    Except PyError BackendModel :=
  let m1 := build_variables varCfgs m imasksV
  match build_expressions reg m1 imasksE with
  | .error e => .error e
  | .ok m2 =>
    match build_constraints reg m2 imasksC with
    | .error e => .error e
    | .ok m3 => build_objective objReg objName m3

/-! ### `solve_model` -/

/-- Destination of a process stream write: the process's own standard
stream, or a `LogWriter` feeding the logging subsystem at a severity.
`LogWriter` itself lives in `calliope.core.util.logging` (external). -/
inductive StreamTarget where
  | system
  | logWriter (level : String)
deriving DecidableEq, Repr

/-- The raw Pyomo results object, restricted to the fields read by this
module: the termination-condition string and the problem/solver status
blocks (as lines). -/
structure SolverResults where
  termination : String
  problemLines : List String
  solverLines : List String
deriving DecidableEq, Repr

/-- The observable state threaded through `solve_model`: the solver
option overrides, warnings, filesystem/tempfile side effects, the two
redirectable standard streams with the log of every write's destination,
the `gurobipy` logger level, and the keyword-argument lists of all
`opt.solve` invocations. -/
structure SolveState where
  optOptions : List (Name × PyVal)
  warnings : List String
  madeDirs : List String
  tempdir : Option String
  stdoutTarget : StreamTarget
  stderrTarget : StreamTarget
  written : List (StreamTarget × String)
  gurobipyLevel : String
  invocations : List (List (Name × PyVal))
deriving Repr

/-- A write to the current stdout lands on the current stdout target. -/
def writeStdout (st : SolveState) (msg : String) : SolveState :=
  { st with written := st.written ++ [(st.stdoutTarget, msg)] }

/-- A write to the current stderr lands on the current stderr target. -/
def writeStderr (st : SolveState) (msg : String) : SolveState :=
  { st with written := st.written ++ [(st.stderrTarget, msg)] }

/-- Embedding of `contextlib.redirect_stdout` as a `with` block: the previous target is
saved, the body runs with the new target, and the previous target is
restored on every exit path (the body's outcome, success or exception, is
returned either way). -/
def redirectStdoutDuring {α : Type} (tgt : StreamTarget)
    (body : SolveState → Except PyError α × SolveState) (st : SolveState) :
    Except PyError α × SolveState :=
  let saved := st.stdoutTarget
  let r := body { st with stdoutTarget := tgt }
  (r.1, { r.2 with stdoutTarget := saved })

/-- Embedding of `contextlib.redirect_stderr`, symmetrically. -/
def redirectStderrDuring {α : Type} (tgt : StreamTarget)
    (body : SolveState → Except PyError α × SolveState) (st : SolveState) :
    Except PyError α × SolveState :=
  let saved := st.stderrTarget
  let r := body { st with stderrTarget := tgt }
  (r.1, { r.2 with stderrTarget := saved })

/-- The external solver run (`opt.solve`): the stdout/stderr lines it
emits while running, and its outcome (results object, or an exception). -/
structure SolverOracle where
  outLines : List String
  errLines : List String
  outcome : Except PyError SolverResults

/-- Modelled from the spec: `calliope.exceptions.warn` is not under
`src/`; per the spec it records a recoverable warning. -/
def exceptionsWarn (warnings : List String) (msg : String) : List String :=
  warnings ++ [msg]

/-- Embedding of `solve_model`: applies solver option overrides; under `save_logs`
forces symbolic labels and kept files, creates the log directory and
points the tempfile manager at it; warns and deletes a requested
`warmstart` for the `glpk`/`cbc` solvers; then invokes the solver with
`tee=True` and the remaining keyword arguments under scoped
stdout(debug)/stderr(error) log redirection, the `gurobipy` logger raised
to `ERROR`. -/
def solve_model (solver : String) (solver_options : List (Name × PyVal))
    (save_logs : Option String) (solve_kwargs : List (Name × PyVal))
    (oracle : SolverOracle) (st : SolveState) :
    Except PyError SolverResults × SolveState :=
  let newOpts := solver_options.foldl
    (fun acc (p : Name × PyVal) => updateKey acc p.1 p.2) st.optOptions
  let st := { st with optOptions := newOpts }
  let step :=
    match save_logs with
    | some dir =>
      (updateKey (updateKey solve_kwargs "symbolic_solver_labels" (.bool true))
         "keepfiles" (.bool true),
       { st with madeDirs := st.madeDirs ++ [dir], tempdir := some dir })
    | none => (solve_kwargs, st)
  let solve_kwargs := step.1
  let st := step.2
  let warmMsg := "The chosen solver, " ++ solver ++
    ", does not suport warmstart, which may impact performance."
  let step :=
    if hasKey solve_kwargs "warmstart" ∧ (solver = "glpk" ∨ solver = "cbc") then
      (dropKey solve_kwargs "warmstart",
       { st with warnings := exceptionsWarn st.warnings warmMsg })
    else (solve_kwargs, st)
  let solve_kwargs := step.1
  let st := step.2
  redirectStdoutDuring (.logWriter "debug")
    (redirectStderrDuring (.logWriter "error")
      (fun st =>
        let st := { st with gurobipyLevel := "ERROR" }
        let st := { st with invocations :=
          st.invocations ++ [("tee", .bool true) :: solve_kwargs] }
        let st := oracle.outLines.foldl writeStdout st
        let st := oracle.errLines.foldl writeStderr st
        (oracle.outcome, st)))
    st

/-! ### `load_results` -/

inductive LogLevel where
  | debug
  | error
  | critical
deriving DecidableEq, Repr

/-- The state observable from `load_results`: the logging output and the
recorded warnings. -/
structure LoadState where
  logs : List (LogLevel × String)
  warnings : List String
deriving DecidableEq, Repr

def logCritical (st : LoadState) (msg : String) : LoadState :=
  { st with logs := st.logs ++ [(.critical, msg)] }

/-- Modelled from the spec: `calliope.exceptions.BackendWarning` is not
under `src/`; per the spec a non-optimal termination or failed solution
load records a recoverable warning. -/
def BackendWarning (st : LoadState) (message : String) : LoadState :=
  { st with warnings := st.warnings ++ [message] }

/-- Embedding of `load_results`: loads the solution into the model instance (the
external `solutions.load_from` outcome is `loadOk`); when the load failed
or the termination condition is not `"optimal"`, logs the problem and
solver status blocks at critical severity and records a warning; always
returns the termination-condition string. -/
def load_results (loadOk : Bool) (results : SolverResults) (st : LoadState) :
    Except PyError (String × LoadState) :=
  if loadOk = false ∨ results.termination ≠ "optimal" then
    let st := logCritical st "Problem status:"
    let st := results.problemLines.foldl logCritical st
    let st := logCritical st "Solver status:"
    let st := results.solverLines.foldl logCritical st
    let message :=
      if results.termination ≠ "optimal" then "Model solution was non-optimal."
      else "Could not load results into model instance."
    .ok (results.termination, BackendWarning st message)
  else .ok (results.termination, st)

/-! ### `get_result_array` -/

/-- Embedding of `_get_dim_order`: the dataset's canonical dimension sequence filtered
to the dimensions in `foreach` (canonical order wins over `foreach`
order). -/
def _get_dim_order (dimsKeys foreach : List Name) : List Name :=
  dimsKeys.filter (fun i => decide (i ∈ foreach))

/-- A dense labeled array: its dimension order and a partial cell map
(`none` is an undefined/missing cell). -/
structure DenseArray where
  dims : List Name
  cell : Idx → Option ℚ

/-- Modelled from the spec: `calliope.backend.pyomo.util.get_var` is not
under `src/`; per the spec it scatters a family's sparse active-tuple
values into a dense labeled array of the given dimension order, leaving
untouched cells undefined. -/
def get_var (vals : List (Idx × ℚ)) (dims : List Name) : DenseArray :=
  { dims := dims, cell := fun t => findVal vals t }

/-- The extraction of one variable or expression family inside
`get_result_array`: `get_var` over the `_get_dim_order` of the family's
declared `foreach`. -/
def extractFamily (mdDims : List Name) (foreach : List Name)
    (vals : List (Idx × ℚ)) : DenseArray :=
  get_var vals (_get_dim_order mdDims foreach)

/-- Substring test, like Python `pat in s`. -/
def listHasSub (pat : List Char) : List Char → Bool
  | [] => decide (pat = [])
  | c :: cs => pat.isPrefixOf (c :: cs) || listHasSub pat cs

/-- Substring test on strings (`"objective_" in i.name`). -/
def strContainsSub (pat s : String) : Bool :=
  listHasSub pat.data s.data

/-- The caller's dataset, restricted to what `get_result_array` touches:
the canonical dimension order and the data variables. -/
structure ModelData where
  dims : List Name
  dataVars : List (Name × DataVar)
deriving DecidableEq, Repr

/-- The `all_params` filter of `get_result_array`: parameters whose name
is no input data variable, whose name does not contain `objective_`, and
which are indexed. -/
def rogueParams (m : BackendModel) (dataVarNames : List Name) :
    List (Name × ParamComp) :=
  m.params.filter (fun np =>
    !(decide (np.1 ∈ dataVarNames)) && !(strContainsSub "objective_" np.1)
      && np.2.indexed)

/-- Modelled from the spec: the dense array `get_var` makes of a rogue
parameter (`expr=True`, no dims) becomes a dataset variable; the code then
sets its `is_result` attribute to 0 before merging. -/
def paramToDataVar (p : ParamComp) : DataVar :=
  { dims := []
    series := p.init.map (fun q => (q.1, Entry.val q.2))
    is_result := 0
    operate_param := 0 }

/-- The in-place `model_data.update(additional_inputs)` side effect of
`get_result_array`: every rogue parameter is merged into the caller's
dataset. -/
def get_result_array_update (m : BackendModel) (md : ModelData) : ModelData :=
  let adds := rogueParams m (md.dataVars.map (fun p => p.1))
  let dvs :=
    adds.foldl (fun dvs np => updateKey dvs np.1 (paramToDataVar np.2))
      md.dataVars
  { md with dataVars := dvs }

/-! ### Helper lemmas -/

theorem calliope_prepend_ne (k : Name) : "calliope_" ++ k ≠ k := by
  intro h
  have h2 := congrArg String.length h
  rw [String.length_append] at h2
  have h3 : ("calliope_" : String).length = 9 := rfl
  omega

theorem findVal_paramInit_not_mem (t : Idx) :
    ∀ series : List (Idx × Entry), t ∉ series.map (fun p => p.1) →
      findVal (paramInitFromSeries series) t = none := by
  intro series
  induction series with
  | nil => intro _; rfl
  | cons p rest ih =>
    intro h
    simp only [List.map_cons, List.mem_cons, not_or] at h
    cases hp : p.2 with
    | val v => simp [paramInitFromSeries, hp, findVal, Ne.symm h.1, ih h.2]
    | posInf => simp [paramInitFromSeries, hp, ih h.2]
    | negInf => simp [paramInitFromSeries, hp, ih h.2]
    | na => simp [paramInitFromSeries, hp, ih h.2]

theorem findVal_paramInit_none (t : Idx) (e : Entry)
    (hinf : e = .posInf ∨ e = .negInf) :
    ∀ series : List (Idx × Entry), (series.map (fun p => p.1)).Nodup →
      (t, e) ∈ series → findVal (paramInitFromSeries series) t = none := by
  intro series
  induction series with
  | nil => intro _ hmem; simp at hmem
  | cons p rest ih =>
    intro hnd hmem
    simp only [List.map_cons, List.nodup_cons] at hnd
    rcases List.mem_cons.mp hmem with h | h
    · have hrest : t ∉ rest.map (fun p => p.1) := by
        rw [← h] at hnd
        exact hnd.1
      rcases hinf with he | he <;>
        simp [← h, he, paramInitFromSeries, findVal_paramInit_not_mem t rest hrest]
    · have hk : p.1 ≠ t := by
        intro heq
        exact hnd.1 (heq ▸ List.mem_map.mpr ⟨(t, e), h, rfl⟩)
      cases hp : p.2 with
      | val v => simp [paramInitFromSeries, hp, findVal, hk, ih hnd.2 h]
      | posInf => simp [paramInitFromSeries, hp, ih hnd.2 h]
      | negInf => simp [paramInitFromSeries, hp, ih hnd.2 h]
      | na => simp [paramInitFromSeries, hp, ih hnd.2 h]

/-! ### Claim theorems -/

/-- C6: when `build_params` declares a parameter from an input data
variable whose name `k` is already an attribute of the model, the
parameter is declared under the deterministically renamed name
`calliope_<k>` while the pre-existing attribute under `k` is left
unchanged — no silent overwrite of `k` and no failure. -/
theorem C6_collision_renamed_deterministically
    (getDomain : Name → DataVar → Name) (defaults : List (Name × Entry))
    (rc : RunConfig) (m : BackendModel) (k : Name) (v : DataVar)
    (hin : m.hasattr k = true)
    (hcond : v.is_result = 0 ∨ (v.operate_param = 1 ∧ rc.mode = "operate")) :
    (declareParamFromVar getDomain defaults rc m (k, v)).getattr k
        = m.getattr k ∧
    (declareParamFromVar getDomain defaults rc m (k, v)).getattr
        ("calliope_" ++ k)
      = some (.param (paramFromVar getDomain defaults k v)) := by
  have hd : declareParamFromVar getDomain defaults rc m (k, v)
      = m.setattr ("calliope_" ++ k)
          (.param (paramFromVar getDomain defaults k v)) := by
    rcases hcond with h | ⟨h1, h2⟩
    · simp [declareParamFromVar, h, hin]
    · simp [declareParamFromVar, h1, h2, hin]
  rw [hd]
  exact ⟨getattr_setattr_ne _ _ _ _ (Ne.symm (calliope_prepend_ne k)),
         getattr_setattr_self _ _ _⟩

/-- Witness for C6 at a concrete collision: a model that already has an
`energy_cap` attribute and an input data variable of the same name. -/
theorem C6_collision_renamed_deterministically_witness :
    ((⟨[("energy_cap", Component.set ["x"])]⟩ : BackendModel).hasattr
        "energy_cap" = true ∧
      (⟨["techs"], [(["A"], Entry.val 3)], 0, 0⟩ : DataVar).is_result = 0 ∨
        ((⟨["techs"], [(["A"], Entry.val 3)], 0, 0⟩ : DataVar).operate_param = 1 ∧
          (⟨"plan", "minmax_cost_optimization", [], none⟩ : RunConfig).mode
            = "operate")) ∧
    (declareParamFromVar (fun _ _ => "Reals") []
          ⟨"plan", "minmax_cost_optimization", [], none⟩
          ⟨[("energy_cap", Component.set ["x"])]⟩
          ("energy_cap", ⟨["techs"], [(["A"], Entry.val 3)], 0, 0⟩)).getattr
        "energy_cap"
      = (⟨[("energy_cap", Component.set ["x"])]⟩ : BackendModel).getattr
          "energy_cap" ∧
    (declareParamFromVar (fun _ _ => "Reals") []
          ⟨"plan", "minmax_cost_optimization", [], none⟩
          ⟨[("energy_cap", Component.set ["x"])]⟩
          ("energy_cap", ⟨["techs"], [(["A"], Entry.val 3)], 0, 0⟩)).getattr
        ("calliope_" ++ "energy_cap")
      = some (.param (paramFromVar (fun _ _ => "Reals") [] "energy_cap"
          ⟨["techs"], [(["A"], Entry.val 3)], 0, 0⟩)) :=
  ⟨Or.inl ⟨rfl, rfl⟩,
    (C6_collision_renamed_deterministically (fun _ _ => "Reals") []
      ⟨"plan", "minmax_cost_optimization", [], none⟩
      ⟨[("energy_cap", Component.set ["x"])]⟩ "energy_cap"
      ⟨["techs"], [(["A"], Entry.val 3)], 0, 0⟩ rfl (Or.inl rfl)).1,
    (C6_collision_renamed_deterministically (fun _ _ => "Reals") []
      ⟨"plan", "minmax_cost_optimization", [], none⟩
      ⟨[("energy_cap", Component.set ["x"])]⟩ "energy_cap"
      ⟨["techs"], [(["A"], Entry.val 3)], 0, 0⟩ rfl (Or.inl rfl)).2⟩

/-- C10: an input-data entry whose value is positive or negative infinity
is dropped from the parameter's initialization data exactly like a missing
entry, so a lookup at that index falls back to the separately supplied
default value instead of returning infinity. -/
theorem C10_infinite_entries_treated_as_missing
    (getDomain : Name → DataVar → Name) (defaults : List (Name × Entry))
    (k : Name) (v : DataVar) (t : Idx) (e : Entry)
    (hnd : (v.series.map (fun p => p.1)).Nodup)
    (hmem : (t, e) ∈ v.series)
    (hinf : e = .posInf ∨ e = .negInf) :
    findVal (paramFromVar getDomain defaults k v).init t = none ∧
    (paramFromVar getDomain defaults k v).valueAt t
      = (paramFromVar getDomain defaults k v).dflt := by
  have h0 : findVal (paramInitFromSeries v.series) t = none :=
    findVal_paramInit_none t e hinf v.series hnd hmem
  exact ⟨h0, by simp [ParamComp.valueAt, paramFromVar, h0]⟩

/-- Witness for C10: a variable with an infinite entry at `["A"]` and a
default of 5; the built parameter has no initialization entry there and
its lookup yields the default. -/
theorem C10_infinite_entries_treated_as_missing_witness :
    (((⟨["techs"], [(["A"], Entry.posInf), (["B"], Entry.val 2)], 0,
          0⟩ : DataVar).series.map (fun p => p.1)).Nodup ∧
      ((["A"] : Idx), Entry.posInf)
        ∈ (⟨["techs"], [(["A"], Entry.posInf), (["B"], Entry.val 2)], 0,
            0⟩ : DataVar).series ∧
      (Entry.posInf = Entry.posInf ∨ Entry.posInf = Entry.negInf)) ∧
    findVal (paramFromVar (fun _ _ => "Reals") [("energy_cap_max", .val 5)]
        "energy_cap_max"
        ⟨["techs"], [(["A"], Entry.posInf), (["B"], Entry.val 2)], 0,
          0⟩).init ["A"] = none ∧
    (paramFromVar (fun _ _ => "Reals") [("energy_cap_max", .val 5)]
        "energy_cap_max"
        ⟨["techs"], [(["A"], Entry.posInf), (["B"], Entry.val 2)], 0,
          0⟩).valueAt ["A"]
      = (paramFromVar (fun _ _ => "Reals") [("energy_cap_max", .val 5)]
          "energy_cap_max"
          ⟨["techs"], [(["A"], Entry.posInf), (["B"], Entry.val 2)], 0,
            0⟩).dflt :=
  ⟨⟨by decide, by decide, Or.inl rfl⟩,
    (C10_infinite_entries_treated_as_missing (fun _ _ => "Reals")
      [("energy_cap_max", .val 5)] "energy_cap_max"
      ⟨["techs"], [(["A"], Entry.posInf), (["B"], Entry.val 2)], 0, 0⟩
      ["A"] Entry.posInf (by decide) (by decide) (Or.inl rfl)).1,
    (C10_infinite_entries_treated_as_missing (fun _ _ => "Reals")
      [("energy_cap_max", .val 5)] "energy_cap_max"
      ⟨["techs"], [(["A"], Entry.posInf), (["B"], Entry.val 2)], 0, 0⟩
      ["A"] Entry.posInf (by decide) (by decide) (Or.inl rfl)).2⟩

/-- C5: with objective option `cost_class = {monetary: 1, co2: 0}` and
model cost-class set `{monetary, co2}`, `build_params` declares the
`objective_cost_class` parameter containing both keys with exactly those
values; in general the filtering step never drops a `cost_class` key that
is present in the cost-class set. -/
theorem C5_cost_class_keys_not_dropped (m : BackendModel)
    (hc : m.getattr "costs" = some (.set ["monetary", "co2"])) :
    (∃ m', buildObjectiveOptions m
        [("cost_class", .dict [("monetary", 1), ("co2", 0)])] = .ok m' ∧
      m'.getattr "objective_cost_class"
        = some (.param
            { init := [(["monetary"], 1), (["co2"], 0)]
              dflt := none
              mutable := true
              indexed := true
              within := "Reals" })) ∧
    (∀ (d : List (String × ℚ)) (costs : List String) (k : String) (val : ℚ),
      (k, val) ∈ d → k ∈ costs →
      (k, val) ∈ d.filter (fun kv => decide (kv.1 ∈ costs))) := by
  constructor
  · have hstep : buildObjectiveOptions m
        [("cost_class", PyVal.dict [("monetary", 1), ("co2", 0)])]
        = .ok (m.setattr "objective_cost_class"
            (.param
              { init := [(["monetary"], 1), (["co2"], 0)]
                dflt := none
                mutable := true
                indexed := true
                within := "Reals" })) := by
      simp [buildObjectiveOptions, hc]
    exact ⟨_, hstep, getattr_setattr_self _ _ _⟩
  · intro d costs k val hmem hk
    exact List.mem_filter.mpr ⟨hmem, by simpa using hk⟩

/-- Witness for C5: the concrete scenario of the claim, on a model whose
`costs` set is `{monetary, co2}`. -/
theorem C5_cost_class_keys_not_dropped_witness :
    ((⟨[("costs", Component.set ["monetary", "co2"])]⟩ : BackendModel).getattr
        "costs" = some (.set ["monetary", "co2"])) ∧
    ((∃ m', buildObjectiveOptions ⟨[("costs", Component.set ["monetary", "co2"])]⟩
        [("cost_class", .dict [("monetary", 1), ("co2", 0)])] = .ok m' ∧
      m'.getattr "objective_cost_class"
        = some (.param
            { init := [(["monetary"], 1), (["co2"], 0)]
              dflt := none
              mutable := true
              indexed := true
              within := "Reals" })) ∧
    (∀ (d : List (String × ℚ)) (costs : List String) (k : String) (val : ℚ),
      (k, val) ∈ d → k ∈ costs →
      (k, val) ∈ d.filter (fun kv => decide (kv.1 ∈ costs)))) :=
  ⟨rfl, C5_cost_class_keys_not_dropped
    ⟨[("costs", Component.set ["monetary", "co2"])]⟩ rfl⟩

theorem build_expressions_ok (reg : Registry) :
    ∀ (l : List (Name × List Idx)) (m : BackendModel),
      ∃ m', build_expressions reg m l = .ok m' := by
  intro l
  induction l with
  | nil => intro m; exact ⟨m, rfl⟩
  | cons p rest ih =>
    intro m
    cases p with
    | mk name imask =>
      cases hr : reg (name ++ "_expression_rule") with
      | some r =>
        obtain ⟨m', h⟩ := ih (m.setattr name (.expr ⟨imask, .rule r⟩))
        exact ⟨m', by simp only [build_expressions, hr]; exact h⟩
      | none =>
        obtain ⟨m', h⟩ := ih (m.setattr name (.expr ⟨imask, .const 0⟩))
        exact ⟨m', by simp only [build_expressions, hr]; exact h⟩

theorem build_expressions_preserve (reg : Registry) (name : Name) :
    ∀ (l : List (Name × List Idx)) (m m' : BackendModel),
      name ∉ l.map (fun p => p.1) →
      build_expressions reg m l = .ok m' →
      m'.getattr name = m.getattr name := by
  intro l
  induction l with
  | nil =>
    intro m m' _ h
    cases h
    rfl
  | cons p rest ih =>
    intro m m' hnm h
    cases p with
    | mk pn pM =>
      simp only [List.map_cons, List.mem_cons, not_or] at hnm
      cases hr : reg (pn ++ "_expression_rule") with
      | some r =>
        simp only [build_expressions, hr] at h
        rw [ih _ _ hnm.2 h, getattr_setattr_ne _ _ _ _ hnm.1]
      | none =>
        simp only [build_expressions, hr] at h
        rw [ih _ _ hnm.2 h, getattr_setattr_ne _ _ _ _ hnm.1]

theorem build_expressions_unregistered (reg : Registry) (name : Name)
    (M : List Idx) (hreg : reg (name ++ "_expression_rule") = none) :
    ∀ l : List (Name × List Idx), (l.map (fun p => p.1)).Nodup →
      (name, M) ∈ l → ∀ m : BackendModel,
      ∃ m', build_expressions reg m l = .ok m' ∧
        m'.getattr name = some (.expr ⟨M, .const 0⟩) := by
  intro l
  induction l with
  | nil => intro _ hmem; simp at hmem
  | cons p rest ih =>
    intro hnd hmem m
    cases p with
    | mk pn pM =>
      simp only [List.map_cons, List.nodup_cons] at hnd
      rcases List.mem_cons.mp hmem with h | h
      · cases h
        obtain ⟨m', hok⟩ := build_expressions_ok reg rest
          (m.setattr name (.expr ⟨M, .const 0⟩))
        refine ⟨m', ?_, ?_⟩
        · simp only [build_expressions, hreg]
          exact hok
        · rw [build_expressions_preserve reg name rest _ _ hnd.1 hok,
            getattr_setattr_self]
      · have hmemk : name ∈ rest.map (fun p => p.1) :=
          List.mem_map.mpr ⟨(name, M), h, rfl⟩
        cases hr : reg (pn ++ "_expression_rule") with
        | some r =>
          obtain ⟨m', h1, h2⟩ := ih hnd.2 h (m.setattr pn (.expr ⟨pM, .rule r⟩))
          exact ⟨m', by simp only [build_expressions, hr]; exact h1, h2⟩
        | none =>
          obtain ⟨m', h1, h2⟩ := ih hnd.2 h (m.setattr pn (.expr ⟨pM, .const 0⟩))
          exact ⟨m', by simp only [build_expressions, hr]; exact h1, h2⟩

/-- C1: an expression family with no registered
`{family}_expression_rule` is still declared — `build_expressions`
succeeds — and its expression carries the value zero at every one of its
active tuples. -/
theorem C1_unregistered_expression_defaults_to_zero (reg : Registry)
    (m : BackendModel) (imasks : List (Name × List Idx)) (name : Name)
    (M : List Idx)
    (hnd : (imasks.map (fun p => p.1)).Nodup)
    (hmem : (name, M) ∈ imasks)
    (hreg : reg (name ++ "_expression_rule") = none) :
    ∃ m', build_expressions reg m imasks = .ok m' ∧
      m'.getattr name = some (.expr ⟨M, .const 0⟩) ∧
      ∀ t ∈ M, ExprComp.valueAt ⟨M, .const 0⟩ t = some 0 := by
  obtain ⟨m', h1, h2⟩ :=
    build_expressions_unregistered reg name M hreg imasks hnd hmem m
  exact ⟨m', h1, h2, fun t ht => by simp [ExprComp.valueAt, ht]⟩

/-- Witness for C1: a registry with no expression rules and a
`cost_investment` family with two active tuples. -/
theorem C1_unregistered_expression_defaults_to_zero_witness :
    (((([("cost_investment", [["A"], ["B"]])] :
        List (Name × List Idx)).map (fun p => p.1)).Nodup) ∧
      ("cost_investment", ([["A"], ["B"]] : List Idx))
        ∈ ([("cost_investment", [["A"], ["B"]])] : List (Name × List Idx)) ∧
      (fun _ => (none : Option Rule)) ("cost_investment" ++ "_expression_rule")
        = none) ∧
    ∃ m', build_expressions (fun _ => none) ⟨[]⟩
        [("cost_investment", [["A"], ["B"]])] = .ok m' ∧
      m'.getattr "cost_investment"
        = some (.expr ⟨[["A"], ["B"]], .const 0⟩) ∧
      ∀ t ∈ ([["A"], ["B"]] : List Idx),
        ExprComp.valueAt ⟨[["A"], ["B"]], .const 0⟩ t = some 0 :=
  ⟨⟨by decide, by decide, rfl⟩,
    C1_unregistered_expression_defaults_to_zero (fun _ => none) ⟨[]⟩
      [("cost_investment", [["A"], ["B"]])] "cost_investment"
      [["A"], ["B"]] (by decide) (by decide) rfl⟩

theorem build_constraints_missing (reg : Registry) :
    ∀ l : List (Name × List Idx),
      (∃ p ∈ l, reg (p.1 ++ "_constraint_rule") = none) →
      ∀ m : BackendModel,
      ∃ a, build_constraints reg m l = .error (.attributeError a) := by
  intro l
  induction l with
  | nil =>
    rintro ⟨p, hp, _⟩
    simp at hp
  | cons q rest ih =>
    rintro ⟨p, hp, hnone⟩ m
    cases q with
    | mk qn qM =>
      cases hr : reg (qn ++ "_constraint_rule") with
      | none =>
        exact ⟨qn ++ "_constraint_rule", by simp [build_constraints, hr]⟩
      | some r =>
        have hpr : p ∈ rest := by
          rcases List.mem_cons.mp hp with h | h
          · rw [h] at hnone
            simp only at hnone
            rw [hnone] at hr
            cases hr
          · exact h
        obtain ⟨a, ha⟩ := ih ⟨p, hpr, hnone⟩
          (m.setattr (qn ++ "_constraint") (.constr ⟨qM, r⟩))
        exact ⟨a, by simp only [build_constraints, hr]; exact ha⟩

/-- C2 (amended): a constraint family with no registered
`{family}_constraint_rule` makes model generation fail at the
constraint-build step — but with the builtin attribute-lookup error raised
by the bare `getattr`, not with a `ConfigurationError` — so the family is
never silently skipped and the failure is never deferred to solve time:
the generation pipeline can never return a built model. -/
theorem C2_missing_constraint_rule_fails_at_build (reg : Registry)
    (objReg : Name → Option (BackendModel → BackendModel)) (objName : Name)
    (varCfgs : Name → VarConfig)
    (imasksV imasksE imasksC : List (Name × List Idx)) (m : BackendModel)
    (name : Name) (M : List Idx)
    (hmem : (name, M) ∈ imasksC)
    (hreg : reg (name ++ "_constraint_rule") = none) :
    (∀ m0 : BackendModel,
      ∃ a, build_constraints reg m0 imasksC = .error (.attributeError a)) ∧
    (∀ m', generateFrom reg objReg objName varCfgs imasksV imasksE imasksC m
      ≠ .ok m') := by
  have hbc := build_constraints_missing reg imasksC ⟨(name, M), hmem, hreg⟩
  refine ⟨hbc, ?_⟩
  intro m' hok
  simp only [generateFrom] at hok
  obtain ⟨m2, h2⟩ :=
    build_expressions_ok reg imasksE (build_variables varCfgs m imasksV)
  rw [h2] at hok
  obtain ⟨a, ha⟩ := hbc m2
  simp only [ha] at hok
  cases hok

/-- Witness for C2 (amended): a single `energy_capacity` constraint family
and a registry with no rules at all. -/
theorem C2_missing_constraint_rule_fails_at_build_witness :
    (("energy_capacity", ([["x1"]] : List Idx))
        ∈ ([("energy_capacity", [["x1"]])] : List (Name × List Idx)) ∧
      (fun _ => (none : Option Rule))
        ("energy_capacity" ++ "_constraint_rule") = none) ∧
    (∀ m0 : BackendModel,
      ∃ a, build_constraints (fun _ => none) m0
        [("energy_capacity", [["x1"]])] = .error (.attributeError a)) ∧
    (∀ m', generateFrom (fun _ => none) (fun _ => none) "minmax_cost_optimization"
        (fun _ => ⟨"NonNegativeReals", none⟩) [] []
        [("energy_capacity", [["x1"]])] ⟨[]⟩ ≠ .ok m') :=
  ⟨⟨by decide, rfl⟩,
    C2_missing_constraint_rule_fails_at_build (fun _ => none) (fun _ => none)
      "minmax_cost_optimization" (fun _ => ⟨"NonNegativeReals", none⟩) [] []
      [("energy_capacity", [["x1"]])] ⟨[]⟩ "energy_capacity" [["x1"]]
      (by decide) rfl⟩

/-- Counterexample for C2 as stated: at a concrete unregistered constraint
family the error raised by `build_constraints` is the attribute-lookup
error, and for no message is it the `ConfigurationError` class the claim
names. -/
theorem C2_counterexample_not_configuration_error :
    build_constraints (fun _ => none) ⟨[]⟩ [("energy_capacity", [["x1"]])]
      = .error (.attributeError "energy_capacity_constraint_rule") ∧
    ∀ msg, build_constraints (fun _ => none) ⟨[]⟩
        [("energy_capacity", [["x1"]])]
      ≠ .error (.configurationError msg) := by
  constructor
  · rfl
  · intro msg h
    have h2 : Except.error (ε := PyError) (α := BackendModel)
        (.attributeError "energy_capacity_constraint_rule")
        = .error (.configurationError msg) := by
      rw [← h]
      rfl
    simp at h2

theorem foldl_logCritical (ls : List String) :
    ∀ st : LoadState, ls.foldl logCritical st
      = { st with logs := st.logs ++ ls.map (fun l => (LogLevel.critical, l)) } := by
  induction ls with
  | nil => intro st; simp
  | cons l rest ih =>
    intro st
    rw [List.foldl_cons, ih]
    simp [logCritical]

/-- C3: for a solver result whose termination condition is not `optimal`
or whose solution failed to load, `load_results` returns the
termination-condition string, logs the problem and solver status blocks at
critical severity, records a warning, and raises no exception. -/
theorem C3_nonoptimal_result_is_recoverable (loadOk : Bool)
    (results : SolverResults) (st : LoadState)
    (h : results.termination ≠ "optimal" ∨ loadOk = false) :
    ∃ st', load_results loadOk results st = .ok (results.termination, st') ∧
      (LogLevel.critical, "Problem status:") ∈ st'.logs ∧
      (∀ l ∈ results.problemLines, (LogLevel.critical, l) ∈ st'.logs) ∧
      (LogLevel.critical, "Solver status:") ∈ st'.logs ∧
      (∀ l ∈ results.solverLines, (LogLevel.critical, l) ∈ st'.logs) ∧
      ∃ msg, st'.warnings = st.warnings ++ [msg] := by
  have hcond : loadOk = false ∨ results.termination ≠ "optimal" := h.symm
  rw [load_results, if_pos hcond]
  refine ⟨_, rfl, ?_⟩
  rw [foldl_logCritical, foldl_logCritical]
  simp only [BackendWarning, logCritical]
  refine ⟨?_, ?_, ?_, ?_, ?_⟩
  · simp
  · intro l hl
    have hm : (LogLevel.critical, l)
        ∈ results.problemLines.map (fun l => (LogLevel.critical, l)) :=
      List.mem_map.mpr ⟨l, hl, rfl⟩
    simp [hm]
  · simp
  · intro l hl
    have hm : (LogLevel.critical, l)
        ∈ results.solverLines.map (fun l => (LogLevel.critical, l)) :=
      List.mem_map.mpr ⟨l, hl, rfl⟩
    simp [hm]
  · exact ⟨_, rfl⟩

/-- Witness for C3: the end-to-end `infeasible` scenario — the returned
string is `"infeasible"`, critical log entries exist, a warning is
recorded, and no exception propagates. -/
theorem C3_nonoptimal_result_is_recoverable_witness :
    (("infeasible" : String) ≠ "optimal" ∨ (true : Bool) = false) ∧
    ∃ st', load_results true ⟨"infeasible", ["p0"], ["s0"]⟩ ⟨[], []⟩
        = .ok ("infeasible", st') ∧
      (LogLevel.critical, "Problem status:") ∈ st'.logs ∧
      (∀ l ∈ (["p0"] : List String), (LogLevel.critical, l) ∈ st'.logs) ∧
      (LogLevel.critical, "Solver status:") ∈ st'.logs ∧
      (∀ l ∈ (["s0"] : List String), (LogLevel.critical, l) ∈ st'.logs) ∧
      ∃ msg, st'.warnings = ([] : List String) ++ [msg] :=
  ⟨Or.inl (by decide),
    C3_nonoptimal_result_is_recoverable true ⟨"infeasible", ["p0"], ["s0"]⟩
      ⟨[], []⟩ (Or.inl (by decide))⟩

theorem foldl_writeStdout (ls : List String) :
    ∀ st : SolveState, ls.foldl writeStdout st
      = { st with written :=
            st.written ++ ls.map (fun l => (st.stdoutTarget, l)) } := by
  induction ls with
  | nil => intro st; simp
  | cons l rest ih =>
    intro st
    rw [List.foldl_cons, ih]
    simp [writeStdout]

theorem foldl_writeStderr (ls : List String) :
    ∀ st : SolveState, ls.foldl writeStderr st
      = { st with written :=
            st.written ++ ls.map (fun l => (st.stderrTarget, l)) } := by
  induction ls with
  | nil => intro st; simp
  | cons l rest ih =>
    intro st
    rw [List.foldl_cons, ih]
    simp [writeStderr]

theorem hasKey_updateKey_ne {κ α : Type} [DecidableEq κ]
    (l : List (κ × α)) (k k' : κ) (v : α) (h : k' ≠ k) :
    hasKey (updateKey l k v) k' = hasKey l k' := by
  simp [hasKey, findVal_updateKey_ne _ _ _ _ h]

theorem solveStage_eq (solve_kwargs : List (Name × PyVal))
    (oracle : SolverOracle) (st : SolveState) :
    redirectStdoutDuring (.logWriter "debug")
      (redirectStderrDuring (.logWriter "error")
        (fun st =>
          let st := { st with gurobipyLevel := "ERROR" }
          let st := { st with invocations :=
            st.invocations ++ [("tee", PyVal.bool true) :: solve_kwargs] }
          let st := oracle.outLines.foldl writeStdout st
          let st := oracle.errLines.foldl writeStderr st
          (oracle.outcome, st)))
      st
    = (oracle.outcome,
       { st with
          gurobipyLevel := "ERROR"
          invocations :=
            st.invocations ++ [("tee", PyVal.bool true) :: solve_kwargs]
          written := st.written
            ++ oracle.outLines.map
                (fun l => (StreamTarget.logWriter "debug", l))
            ++ oracle.errLines.map
                (fun l => (StreamTarget.logWriter "error", l)) }) := by
  simp [redirectStdoutDuring, redirectStderrDuring, foldl_writeStdout,
    foldl_writeStderr]

/-- C4: a requested `warmstart` with a solver in the no-warm-start set
(`glpk`, `cbc`) is removed from the solve keyword arguments, a warning is
recorded, and the solver is still invoked — the request never turns into a
failure (the outcome is exactly the solver's own). -/
theorem C4_unsupported_warmstart_dropped (solver : String)
    (solver_options : List (Name × PyVal)) (save_logs : Option String)
    (solve_kwargs : List (Name × PyVal)) (oracle : SolverOracle)
    (st : SolveState)
    (hw : hasKey solve_kwargs "warmstart" = true)
    (hs : solver = "glpk" ∨ solver = "cbc") :
    (solve_model solver solver_options save_logs solve_kwargs oracle st).1
        = oracle.outcome ∧
    (∃ ks, (solve_model solver solver_options save_logs solve_kwargs oracle
          st).2.invocations = st.invocations ++ [ks] ∧
      hasKey ks "warmstart" = false) ∧
    (solve_model solver solver_options save_logs solve_kwargs oracle
        st).2.warnings
      = st.warnings ++ ["The chosen solver, " ++ solver ++
          ", does not suport warmstart, which may impact performance."] := by
  cases save_logs with
  | none =>
    simp only [solve_model]
    rw [if_pos ⟨hw, hs⟩, solveStage_eq]
    refine ⟨rfl, ⟨("tee", PyVal.bool true) :: dropKey solve_kwargs "warmstart",
      by simp, ?_⟩, by simp [exceptionsWarn]⟩
    simp [hasKey, findVal, findVal_dropKey_self]
  | some dir =>
    have hw2 : hasKey (updateKey (updateKey solve_kwargs
        "symbolic_solver_labels" (.bool true)) "keepfiles" (.bool true))
        "warmstart" = true := by
      rw [hasKey_updateKey_ne _ _ _ _ (by decide),
        hasKey_updateKey_ne _ _ _ _ (by decide)]
      exact hw
    simp only [solve_model]
    rw [if_pos ⟨hw2, hs⟩, solveStage_eq]
    refine ⟨rfl, ⟨("tee", PyVal.bool true) :: dropKey (updateKey (updateKey
        solve_kwargs "symbolic_solver_labels" (.bool true)) "keepfiles"
        (.bool true)) "warmstart", by simp, ?_⟩, by simp [exceptionsWarn]⟩
    simp [hasKey, findVal, findVal_dropKey_self]

/-- Witness for C4: a `glpk` solve request with `warmstart=True`. -/
theorem C4_unsupported_warmstart_dropped_witness :
    (hasKey ([("warmstart", PyVal.bool true)] : List (Name × PyVal))
        "warmstart" = true ∧
      (("glpk" : String) = "glpk" ∨ ("glpk" : String) = "cbc")) ∧
    ((solve_model "glpk" [] none [("warmstart", PyVal.bool true)]
          ⟨[], [], .ok ⟨"optimal", [], []⟩⟩
          ⟨[], [], [], none, .system, .system, [], "WARNING", []⟩).1
        = (⟨[], [], .ok ⟨"optimal", [], []⟩⟩ : SolverOracle).outcome ∧
    (∃ ks, (solve_model "glpk" [] none [("warmstart", PyVal.bool true)]
          ⟨[], [], .ok ⟨"optimal", [], []⟩⟩
          ⟨[], [], [], none, .system, .system, [], "WARNING", []⟩).2.invocations
        = ([] : List (List (Name × PyVal))) ++ [ks] ∧
      hasKey ks "warmstart" = false) ∧
    (solve_model "glpk" [] none [("warmstart", PyVal.bool true)]
        ⟨[], [], .ok ⟨"optimal", [], []⟩⟩
        ⟨[], [], [], none, .system, .system, [], "WARNING", []⟩).2.warnings
      = ([] : List String) ++ ["The chosen solver, " ++ "glpk" ++
          ", does not suport warmstart, which may impact performance."]) :=
  ⟨⟨rfl, Or.inl rfl⟩,
    C4_unsupported_warmstart_dropped "glpk" [] none
      [("warmstart", PyVal.bool true)] ⟨[], [], .ok ⟨"optimal", [], []⟩⟩
      ⟨[], [], [], none, .system, .system, [], "WARNING", []⟩ rfl
      (Or.inl rfl)⟩

/-- C9: during `solve_model` the standard streams are redirected to log
writers (stdout at debug severity, stderr at error severity) exactly for
the solver invocation; on every exit path — the oracle's outcome is
returned unchanged, exception or not — the original stream targets are
restored, and no write performed during the solve lands on the process's
own standard streams. -/
theorem C9_scoped_stream_redirection (solver : String)
    (solver_options : List (Name × PyVal)) (save_logs : Option String)
    (solve_kwargs : List (Name × PyVal)) (oracle : SolverOracle)
    (st : SolveState) :
    (solve_model solver solver_options save_logs solve_kwargs oracle st).1
        = oracle.outcome ∧
    (solve_model solver solver_options save_logs solve_kwargs oracle
        st).2.stdoutTarget = st.stdoutTarget ∧
    (solve_model solver solver_options save_logs solve_kwargs oracle
        st).2.stderrTarget = st.stderrTarget ∧
    (solve_model solver solver_options save_logs solve_kwargs oracle
        st).2.written
      = st.written
          ++ oracle.outLines.map (fun l => (StreamTarget.logWriter "debug", l))
          ++ oracle.errLines.map (fun l => (StreamTarget.logWriter "error", l)) ∧
    ∀ w ∈ ((solve_model solver solver_options save_logs solve_kwargs oracle
        st).2.written).drop st.written.length,
      w.1 ≠ StreamTarget.system := by
  have main : (solve_model solver solver_options save_logs solve_kwargs
        oracle st).1 = oracle.outcome ∧
      (solve_model solver solver_options save_logs solve_kwargs oracle
        st).2.stdoutTarget = st.stdoutTarget ∧
      (solve_model solver solver_options save_logs solve_kwargs oracle
        st).2.stderrTarget = st.stderrTarget ∧
      (solve_model solver solver_options save_logs solve_kwargs oracle
        st).2.written
        = st.written
          ++ oracle.outLines.map (fun l => (StreamTarget.logWriter "debug", l))
          ++ oracle.errLines.map
              (fun l => (StreamTarget.logWriter "error", l)) := by
    cases save_logs with
    | none =>
      by_cases h : hasKey solve_kwargs "warmstart" = true
          ∧ (solver = "glpk" ∨ solver = "cbc")
      · simp only [solve_model]
        rw [if_pos h, solveStage_eq]
        exact ⟨rfl, rfl, rfl, rfl⟩
      · simp only [solve_model]
        rw [if_neg h, solveStage_eq]
        exact ⟨rfl, rfl, rfl, rfl⟩
    | some dir =>
      by_cases h : hasKey (updateKey (updateKey solve_kwargs
          "symbolic_solver_labels" (.bool true)) "keepfiles" (.bool true))
          "warmstart" = true ∧ (solver = "glpk" ∨ solver = "cbc")
      · simp only [solve_model]
        rw [if_pos h, solveStage_eq]
        exact ⟨rfl, rfl, rfl, rfl⟩
      · simp only [solve_model]
        rw [if_neg h, solveStage_eq]
        exact ⟨rfl, rfl, rfl, rfl⟩
  refine ⟨main.1, main.2.1, main.2.2.1, main.2.2.2, ?_⟩
  intro w hw
  rw [main.2.2.2, List.append_assoc, List.drop_left] at hw
  rcases List.mem_append.mp hw with h | h
  · obtain ⟨l, _, rfl⟩ := List.mem_map.mp h
    simp
  · obtain ⟨l, _, rfl⟩ := List.mem_map.mp h
    simp

/-- C7: the output array of a family is shaped by the dataset's canonical
dimension sequence filtered to the family's declared `foreach` — invariant
under reordering of `foreach` and a subsequence of the canonical order —
and the sparse active-tuple values are scattered into it, inactive cells
staying undefined. -/
theorem C7_canonical_dim_order_and_scatter (D f g : List Name)
    (vals : List (Idx × ℚ))
    (hperm : ∀ x, x ∈ f ↔ x ∈ g)
    (hnd : (vals.map (fun p => p.1)).Nodup) :
    (extractFamily D f vals).dims = D.filter (fun i => decide (i ∈ f)) ∧
    (extractFamily D f vals).dims = (extractFamily D g vals).dims ∧
    ((extractFamily D f vals).dims).Sublist D ∧
    (∀ t v, (t, v) ∈ vals → (extractFamily D f vals).cell t = some v) ∧
    (∀ t, hasKey vals t = false → (extractFamily D f vals).cell t = none) := by
  refine ⟨rfl, ?_, ?_, ?_, ?_⟩
  · show D.filter (fun i => decide (i ∈ f)) = D.filter (fun i => decide (i ∈ g))
    exact List.filter_congr (fun x _ => decide_eq_decide.mpr (hperm x))
  · exact List.filter_sublist D
  · intro t v h
    exact findVal_of_mem_nodup vals t v hnd h
  · intro t h
    exact (hasKey_eq_false_iff vals t).mp h

/-- Witness for C7: canonical dims `[techs, timesteps]`, `foreach`
declared in the reversed order, one active tuple. -/
theorem C7_canonical_dim_order_and_scatter_witness :
    ((∀ x, x ∈ (["timesteps", "techs"] : List Name)
        ↔ x ∈ (["techs", "timesteps"] : List Name)) ∧
      ((([((["A", "t0"] : Idx), (3 : ℚ))]).map (fun p => p.1)).Nodup)) ∧
    ((extractFamily ["techs", "timesteps"] ["timesteps", "techs"]
        [(["A", "t0"], 3)]).dims
      = (["techs", "timesteps"] : List Name).filter
          (fun i => decide (i ∈ (["timesteps", "techs"] : List Name))) ∧
    (extractFamily ["techs", "timesteps"] ["timesteps", "techs"]
        [(["A", "t0"], 3)]).dims
      = (extractFamily ["techs", "timesteps"] ["techs", "timesteps"]
          [(["A", "t0"], 3)]).dims ∧
    ((extractFamily ["techs", "timesteps"] ["timesteps", "techs"]
        [(["A", "t0"], 3)]).dims).Sublist ["techs", "timesteps"] ∧
    (∀ t v, (t, v) ∈ [((["A", "t0"] : Idx), (3 : ℚ))] →
      (extractFamily ["techs", "timesteps"] ["timesteps", "techs"]
        [(["A", "t0"], 3)]).cell t = some v) ∧
    (∀ t, hasKey [((["A", "t0"] : Idx), (3 : ℚ))] t = false →
      (extractFamily ["techs", "timesteps"] ["timesteps", "techs"]
        [(["A", "t0"], 3)]).cell t = none)) := by
  have hperm : ∀ x : Name, x ∈ (["timesteps", "techs"] : List Name)
      ↔ x ∈ (["techs", "timesteps"] : List Name) := by
    intro x
    simp only [List.mem_cons, List.mem_singleton, List.not_mem_nil, or_false]
    exact Or.comm
  exact ⟨⟨hperm, by decide⟩,
    C7_canonical_dim_order_and_scatter ["techs", "timesteps"]
      ["timesteps", "techs"] ["techs", "timesteps"] [(["A", "t0"], 3)]
      hperm (by decide)⟩

theorem foldl_updateKey_append {κ α β : Type} [DecidableEq κ]
    (f : κ × β → α) :
    ∀ (adds : List (κ × β)) (dvs : List (κ × α)),
      (∀ p ∈ adds, hasKey dvs p.1 = false) →
      (adds.map (fun p => p.1)).Nodup →
      adds.foldl (fun d p => updateKey d p.1 (f p)) dvs
        = dvs ++ adds.map (fun p => (p.1, f p)) := by
  intro adds
  induction adds with
  | nil => intro dvs _ _; simp
  | cons q rest ih =>
    intro dvs hnk hnd
    simp only [List.map_cons, List.nodup_cons] at hnd
    have h1 : findVal dvs q.1 = none :=
      (hasKey_eq_false_iff _ _).mp (hnk q (List.mem_cons_self q rest))
    have hstep : ∀ p ∈ rest, hasKey (dvs ++ [(q.1, f q)]) p.1 = false := by
      intro p hp
      have ha : hasKey dvs p.1 = false := hnk p (List.mem_cons_of_mem q hp)
      have hne : p.1 ≠ q.1 := by
        intro he
        exact hnd.1 (he ▸ List.mem_map.mpr ⟨p, hp, rfl⟩)
      have hb : hasKey [(q.1, f q)] p.1 = false := by
        simp [hasKey, findVal, Ne.symm hne]
      rw [hasKey_append, ha, hb]
      rfl
    rw [List.foldl_cons, updateKey_of_findVal_none _ _ _ h1,
      ih (dvs ++ [(q.1, f q)]) hstep hnd.2]
    simp

/-- C8: `get_result_array` mutates the caller's dataset only by appending
exactly the parameters that are mutable, indexed, named after no input
data variable and not objective-configuration parameters (every parameter
this backend declares is mutable, so the hypothesis holds for generated
models); every pre-existing data variable is left unchanged. -/
theorem C8_extraction_dataset_frame (m : BackendModel) (md : ModelData)
    (hmut : ∀ np ∈ m.params, np.2.mutable = true)
    (hpnd : (m.params.map (fun np => np.1)).Nodup) :
    (get_result_array_update m md).dims = md.dims ∧
    (get_result_array_update m md).dataVars
      = md.dataVars ++
        (m.params.filter (fun np =>
            np.2.mutable && np.2.indexed
              && !(decide (np.1 ∈ md.dataVars.map (fun p => p.1)))
              && !(strContainsSub "objective_" np.1))).map
          (fun np => (np.1, paramToDataVar np.2)) ∧
    (∀ n, hasKey md.dataVars n = true →
      findVal (get_result_array_update m md).dataVars n
        = findVal md.dataVars n) := by
  have hfilter : rogueParams m (md.dataVars.map (fun p => p.1))
      = m.params.filter (fun np =>
          np.2.mutable && np.2.indexed
            && !(decide (np.1 ∈ md.dataVars.map (fun p => p.1)))
            && !(strContainsSub "objective_" np.1)) := by
    apply List.filter_congr
    intro np hnp
    rw [hmut np hnp]
    cases h1 : np.2.indexed <;>
      cases h2 : decide (np.1 ∈ md.dataVars.map (fun p => p.1)) <;>
        cases h3 : strContainsSub "objective_" np.1 <;> rfl
  have hnk : ∀ p ∈ rogueParams m (md.dataVars.map (fun q => q.1)),
      hasKey md.dataVars p.1 = false := by
    intro p hp
    simp only [rogueParams, List.mem_filter, Bool.and_eq_true,
      Bool.not_eq_true', decide_eq_false_iff_not] at hp
    cases hb : hasKey md.dataVars p.1 with
    | false => rfl
    | true =>
      exact absurd ((hasKey_iff_mem_keys _ _).mp hb) hp.2.1.1
  have hrnd : ((rogueParams m (md.dataVars.map (fun q => q.1))).map
      (fun p => p.1)).Nodup :=
    hpnd.sublist ((List.filter_sublist _).map _)
  have hmain : (get_result_array_update m md).dataVars
      = md.dataVars ++ (rogueParams m (md.dataVars.map (fun p => p.1))).map
          (fun np => (np.1, paramToDataVar np.2)) := by
    simp only [get_result_array_update]
    exact foldl_updateKey_append (fun np => paramToDataVar np.2) _
      md.dataVars hnk hrnd
  refine ⟨rfl, ?_, ?_⟩
  · rw [hmain, hfilter]
  · intro n hn
    rw [hmain, findVal_append]
    cases hfv : findVal md.dataVars n with
    | some v => rfl
    | none =>
      rw [hasKey, hfv] at hn
      cases hn

/-- Witness for C8: a model with a rogue parameter (`extra_cap`), a
parameter matching an input variable (`energy_cap`), an
objective-configuration parameter and the scalar `bigM`; only the rogue
one is appended, the original variable is untouched. -/
theorem C8_extraction_dataset_frame_witness :
    ((∀ np ∈ (⟨[("costs", Component.set ["monetary"]),
        ("energy_cap", Component.param ⟨[(["A"], 1)], none, true, true,
          "Reals"⟩),
        ("extra_cap", Component.param ⟨[(["B"], 2)], none, true, true,
          "Reals"⟩),
        ("objective_cost_class", Component.param ⟨[(["monetary"], 1)], none,
          true, true, "Reals"⟩),
        ("bigM", Component.param ⟨[([], 10000000000)], none, true, false,
          "NonNegativeReals"⟩)]⟩ : BackendModel).params,
        np.2.mutable = true) ∧
      (((⟨[("costs", Component.set ["monetary"]),
        ("energy_cap", Component.param ⟨[(["A"], 1)], none, true, true,
          "Reals"⟩),
        ("extra_cap", Component.param ⟨[(["B"], 2)], none, true, true,
          "Reals"⟩),
        ("objective_cost_class", Component.param ⟨[(["monetary"], 1)], none,
          true, true, "Reals"⟩),
        ("bigM", Component.param ⟨[([], 10000000000)], none, true, false,
          "NonNegativeReals"⟩)]⟩ : BackendModel).params.map
          (fun np => np.1)).Nodup)) ∧
    ((get_result_array_update
        ⟨[("costs", Component.set ["monetary"]),
          ("energy_cap", Component.param ⟨[(["A"], 1)], none, true, true,
            "Reals"⟩),
          ("extra_cap", Component.param ⟨[(["B"], 2)], none, true, true,
            "Reals"⟩),
          ("objective_cost_class", Component.param ⟨[(["monetary"], 1)], none,
            true, true, "Reals"⟩),
          ("bigM", Component.param ⟨[([], 10000000000)], none, true, false,
            "NonNegativeReals"⟩)]⟩
        ⟨["techs"], [("energy_cap", ⟨["techs"], [(["A"], .val 1)], 0,
          0⟩)]⟩).dataVars
      = [("energy_cap", (⟨["techs"], [(["A"], .val 1)], 0, 0⟩ : DataVar)),
         ("extra_cap", paramToDataVar ⟨[(["B"], 2)], none, true, true,
            "Reals"⟩)] ∧
    findVal (get_result_array_update
        ⟨[("costs", Component.set ["monetary"]),
          ("energy_cap", Component.param ⟨[(["A"], 1)], none, true, true,
            "Reals"⟩),
          ("extra_cap", Component.param ⟨[(["B"], 2)], none, true, true,
            "Reals"⟩),
          ("objective_cost_class", Component.param ⟨[(["monetary"], 1)], none,
            true, true, "Reals"⟩),
          ("bigM", Component.param ⟨[([], 10000000000)], none, true, false,
            "NonNegativeReals"⟩)]⟩
        ⟨["techs"], [("energy_cap", ⟨["techs"], [(["A"], .val 1)], 0,
          0⟩)]⟩).dataVars "energy_cap"
      = some (⟨["techs"], [(["A"], .val 1)], 0, 0⟩ : DataVar)) := by
  constructor
  · exact ⟨by decide, by decide⟩
  · have h := C8_extraction_dataset_frame
      ⟨[("costs", Component.set ["monetary"]),
        ("energy_cap", Component.param ⟨[(["A"], 1)], none, true, true,
          "Reals"⟩),
        ("extra_cap", Component.param ⟨[(["B"], 2)], none, true, true,
          "Reals"⟩),
        ("objective_cost_class", Component.param ⟨[(["monetary"], 1)], none,
          true, true, "Reals"⟩),
        ("bigM", Component.param ⟨[([], 10000000000)], none, true, false,
          "NonNegativeReals"⟩)]⟩
      ⟨["techs"], [("energy_cap", ⟨["techs"], [(["A"], .val 1)], 0, 0⟩)]⟩
      (by decide) (by decide)
    refine ⟨?_, ?_⟩
    · rw [h.2.1]
      rfl
    · rw [h.2.2 "energy_cap" (by decide)]
      rfl

end Calliope
